import Mathlib

/-!
Shallow embedding of `arxiv.py`: the relevance scorer `title_relevance`,
the static keyword table, and the sort/filter display logic of `main`.

Strings are modelled as `List Char`; Python floats as `ℚ`; the regular
expressions appearing in the keyword table are modelled by a small AST
(`RE`) covering exactly the constructs the table uses: literal characters,
character classes, the word-boundary assertion `\b`, and an optional
single character (`-?`).  A Python `ZeroDivisionError` is modelled by
`Option.none`.
-/

namespace Arxiv

/-- Regular-expression atoms used by the keyword table of `arxiv.py`:
a literal character, a character class `[...]`, the word-boundary
assertion `\b`, and an optional character `c?`. -/
inductive RE where
  | lit (c : Char)
  | cls (cs : List Char)
  | wb
  | opt (c : Char)
deriving DecidableEq

/-- A pattern is a sequence of regular-expression atoms. -/
abbrev Pat := List RE

/-- Python's `\w` (ASCII): letters, digits and underscore. -/
def isWordChar (c : Char) : Bool := c.isAlphanum || c = '_'

/-- Is the position between `prev` and `next` a word boundary
(`re` semantics: exactly one side is a word character)? -/
def atBoundary (prev : Option Char) (next : List Char) : Bool :=
  (prev.elim false isWordChar) != (match next with
    | [] => false
    | d :: _ => isWordChar d)

/-- Does pattern `p` match a prefix of `s`, where `prev` is the character
just before `s` (for word-boundary tests)? -/
def matchFrom : Pat → Option Char → List Char → Bool
  | [], _, _ => true
  | RE.lit _ :: _, _, [] => false
  | RE.lit c :: p, _, d :: rest => c == d && matchFrom p (some d) rest
  | RE.cls _ :: _, _, [] => false
  | RE.cls cs :: p, _, d :: rest => cs.contains d && matchFrom p (some d) rest
  | RE.wb :: p, prev, s => atBoundary prev s && matchFrom p prev s
  | RE.opt _ :: p, prev, [] => matchFrom p prev []
  | RE.opt c :: p, prev, d :: rest =>
      (c == d && matchFrom p (some d) rest) || matchFrom p prev (d :: rest)

/-- `re.search`: does `p` match at some position of `s`?  `prev` is the
character preceding `s` (`none` at the start of the string). -/
def reSearch (p : Pat) : Option Char → List Char → Bool
  | prev, [] => matchFrom p prev []
  | prev, d :: rest => matchFrom p prev (d :: rest) || reSearch p (some d) rest

/-- Python `str.lower()` applied to a pattern: lowercases literal
characters and characters inside classes; `\b` and `?` are unaffected. -/
def lowerPat (p : Pat) : Pat :=
  p.map fun a =>
    match a with
    | RE.lit c => RE.lit c.toLower
    | RE.cls cs => RE.cls (cs.map Char.toLower)
    | RE.wb => RE.wb
    | RE.opt c => RE.opt c.toLower

/-- Token counter for Python `str.split()` (split on whitespace runs,
dropping empty tokens); the flag records whether we are inside a token. -/
def tokAux : Bool → List Char → Nat
  | _, [] => 0
  | inTok, c :: rest =>
      if c.isWhitespace then tokAux false rest
      else if inTok then tokAux true rest
      else 1 + tokAux true rest

/-- `len(title.split())`: the number of whitespace-delimited tokens. -/
def tokenCount (s : List Char) : Nat := tokAux false s

/-- The loop body of `title_relevance`: iterate over the keyword table in
order, look for the lowercased pattern in the (already lowercased) title,
and accumulate the weight sum and the list of matching patterns. -/
def relLoop (low : List Char) : List (Pat × Int) → Int × List Pat
  | [] => (0, [])
  | kw :: rest =>
      let r := relLoop low rest
      if reSearch (lowerPat kw.1) none low then (kw.2 + r.1, kw.1 :: r.2) else r

/-- `title_relevance(title, keywords)` from `arxiv.py`:
returns the weight sum of the patterns found in the lowercased title,
divided by the token count of the title, together with the matching
patterns in table order.  A zero token count makes the Python code raise
`ZeroDivisionError`, modelled as `none`. -/
def title_relevance (title : List Char) (keywords : List (Pat × Int)) :
    Option (ℚ × List Pat) :=
  let n := tokenCount title
  if n = 0 then none
  else
    let r := relLoop (title.map Char.toLower) keywords
    some ((r.1 : ℚ) / (n : ℚ), r.2)

/-- Does the table entry `kw` match `title` the way `title_relevance`
tests it (lowercased pattern searched in the lowercased title)? -/
def matchesTitle (title : List Char) (kw : Pat × Int) : Bool :=
  reSearch (lowerPat kw.1) none (title.map Char.toLower)

/-- The scorer as §4.1 of the specification describes it: the sum of the
weights of exactly the matching patterns, divided by the token count,
paired with the matching patterns' original strings in table order. -/
def score_spec (title : List Char) (keywords : List (Pat × Int)) :
    ℚ × List Pat :=
  ((((keywords.filter (matchesTitle title)).map (fun kw => kw.2) : List ℤ).sum : ℚ) /
      (tokenCount title : ℚ),
   (keywords.filter (matchesTitle title)).map (fun kw => kw.1))

/-- A string of literal characters, as a pattern. -/
def lits (s : String) : Pat := s.data.map RE.lit

/-- The fixed keyword table of `arxiv.py` (lines 45–88), in source order.
`\b` is the word-boundary atom; in `[\bfmn]` Python reads `\b` inside a
character class as the backspace character `\x08`; `-?` is an optional
hyphen. -/
def keywords : List (Pat × Int) :=
  [(RE.wb :: lits "smg" ++ [RE.wb], 10),
   (lits "millimet", 8),
   (RE.wb :: lits "ism" ++ [RE.wb], 8),
   (lits "herschel", 6),
   (RE.wb :: lits "sed" ++ [RE.wb], 4),
   (lits "spectra", 4),
   (lits "pdbi", 4),
   (RE.wb :: lits "lens", 4),
   (lits "cii", 4),
   (lits "emission", 4),
   (lits "molecular", 4),
   (lits "j=", 4),
   (RE.wb :: lits "dust", 4),
   (lits "starburst", 4),
   (RE.wb :: lits "agn" ++ [RE.wb], 4),
   (lits "quasar", 4),
   (lits "qso", 4),
   (lits "sub", 4),
   (lits "formation", 4),
   (lits "forming", 4),
   (lits "medium", 4),
   (lits "luminosit", 2),
   (lits "active", 2),
   (RE.wb :: lits "gala", 2),
   (lits "gravitational", 2),
   (lits "redshift", 2),
   (lits "source", 2),
   (lits "number", 2),
   (lits "star", 2),
   (lits "simulation", 2),
   (lits "distribution", 2),
   (lits "energy", 2),
   (lits "massive", 2),
   (RE.cls ['\x08', 'f', 'm', 'n'] :: lits "ir" ++ [RE.wb], 2),
   (lits "infra" ++ RE.opt '-' :: lits "red", 2),
   (lits "propert", 2),
   (lits "observ", 2),
   (RE.wb :: lits "inter", 2),
   (lits "relation", 2),
   (lits "grow", 2),
   (lits "gas", 2),
   (lits "high", 2)]

/-- One scored feed entry, as built in `main`
(`[relevance, entry id without its first 21 characters, title, matched]`). -/
structure Article where
  score : ℚ
  ident : List Char
  title : List Char
  matched : List Pat
deriving DecidableEq

/-- The sort key comparison of `articles.sort(key=..., reverse=False)`. -/
def scoreLE (a b : Article) : Bool := a.score ≤ b.score

/-- The display threshold `0.7` of `main`. -/
def threshold : ℚ := 7 / 10

/-- The articles `main` prints: the whole input list is stable-sorted
ascending by score, then the articles with score `> 0.7` are printed in
that order. -/
def displayed (arts : List Article) : List Article :=
  (arts.mergeSort scoreLE).filter (fun a => threshold < a.score)

/-- Identifier extraction of `main`: `entry['id'][21:]`. -/
def extractId (s : List Char) : List Char := s.drop 21

/-- Round-half-even on rationals (the rounding `"{0:.1f}".format` uses). -/
def roundHalfEven (q : ℚ) : ℤ :=
  let f : ℤ := ⌊q⌋
  if q - f < 1 / 2 then f
  else if 1 / 2 < q - f then f + 1
  else if f % 2 = 0 then f else f + 1

/-- `"{0:.1f}".format(q)` for a non-negative rational score. -/
def fmt1 (q : ℚ) : String :=
  let n := roundHalfEven (q * 10)
  toString (n / 10) ++ "." ++ toString (n % 10)

/-- The title of the concrete scenario in §8 of the specification. -/
def herschelTitle : List Char :=
  "Herschel observations of dust in star-forming galaxies".data

/-- The article `main` would build for `herschelTitle` (score `20/7`). -/
def herschelArticle : Article :=
  { score := 20 / 7, ident := "1402.00001".data, title := herschelTitle,
    matched := [lits "herschel", RE.wb :: lits "dust", lits "forming",
                RE.wb :: lits "gala", lits "star", lits "observ"] }

/-! ### Helper lemmas about characters -/

theorem char_toNat_inj {c d : Char} (h : c.toNat = d.toNat) : c = d :=
  Char.ext (UInt32.ext h)

theorem toNat_ofNat_valid {m : Nat} (h : m < 55296) : (Char.ofNat m).toNat = m := by
  rw [Char.ofNat, dif_pos (Or.inl h)]
  rfl

theorem toLower_def (c : Char) :
    c.toLower = if 65 ≤ c.toNat ∧ c.toNat ≤ 90 then Char.ofNat (c.toNat + 32) else c := rfl

theorem isWhitespace_eq_false_of_toNat (c : Char) (h1 : 65 ≤ c.toNat)
    (h2 : c.toNat ≤ 122) : c.isWhitespace = false := by
  simp only [Char.isWhitespace, Bool.or_eq_false_iff, decide_eq_false_iff_not]
  refine ⟨⟨⟨fun hc => ?_, fun hc => ?_⟩, fun hc => ?_⟩, fun hc => ?_⟩ <;>
    (subst hc; revert h1; decide)

theorem isWhitespace_toLower (c : Char) :
    c.toLower.isWhitespace = c.isWhitespace := by
  rw [toLower_def]
  split
  · next h =>
    obtain ⟨h1, h2⟩ := h
    rw [isWhitespace_eq_false_of_toNat c h1 (by omega)]
    apply isWhitespace_eq_false_of_toNat
    · rw [toNat_ofNat_valid (by omega)]; omega
    · rw [toNat_ofNat_valid (by omega)]; omega
  · rfl

theorem toLower_toLower (c : Char) : c.toLower.toLower = c.toLower := by
  by_cases h : 65 ≤ c.toNat ∧ c.toNat ≤ 90
  · rw [toLower_def c, if_pos h, toLower_def, toNat_ofNat_valid (by omega),
      if_neg (by omega)]
  · rw [toLower_def c, if_neg h, toLower_def c, if_neg h]

/-! ### Helper lemmas about the scorer loop -/

/-- The loop of `title_relevance` computes the weight sum and original
patterns of exactly the matching table entries, in table order. -/
theorem relLoop_eq (low : List Char) (k : List (Pat × Int)) :
    relLoop low k =
      (((k.filter (fun kw => reSearch (lowerPat kw.1) none low)).map
          (fun kw => kw.2)).sum,
       (k.filter (fun kw => reSearch (lowerPat kw.1) none low)).map
          (fun kw => kw.1)) := by
  induction k with
  | nil => rfl
  | cons kw rest ih =>
    rw [relLoop, ih]
    by_cases h : reSearch (lowerPat kw.1) none low
    · simp [h]
    · simp [h]

/-- With at least one token, `title_relevance` returns exactly what §4.1
of the specification prescribes. -/
theorem title_relevance_some (t : List Char) (k : List (Pat × Int))
    (h : tokenCount t ≠ 0) :
    title_relevance t k = some (score_spec t k) := by
  unfold title_relevance score_spec matchesTitle
  simp only [relLoop_eq]
  rw [if_neg h]

/-- Scaling every weight scales the accumulated sum and keeps the
matched list. -/
theorem relLoop_scale (low : List Char) (c : ℤ) (k : List (Pat × Int)) :
    relLoop low (k.map (fun kw => (kw.1, c * kw.2))) =
      (c * (relLoop low k).1, (relLoop low k).2) := by
  induction k with
  | nil => simp [relLoop]
  | cons kw rest ih =>
    simp only [List.map_cons, relLoop, ih]
    by_cases h : reSearch (lowerPat kw.1) none low <;> simp [h, mul_add]

/-- Token counting only looks at whitespace, which `str.lower()`
preserves. -/
theorem tokAux_lower_congr (s t : List Char)
    (h : s.map Char.toLower = t.map Char.toLower) :
    ∀ b, tokAux b s = tokAux b t := by
  induction s generalizing t with
  | nil =>
    have ht : t = [] := by simpa using h.symm
    subst ht; intro b; rfl
  | cons c s' ih =>
    cases t with
    | nil => simp at h
    | cons d t' =>
      simp only [List.map_cons, List.cons.injEq] at h
      obtain ⟨h1, h2⟩ := h
      have hw : c.isWhitespace = d.isWhitespace := by
        rw [← isWhitespace_toLower c, h1, isWhitespace_toLower]
      intro b
      rw [tokAux, tokAux, hw]
      by_cases hd : d.isWhitespace
      · simp [hd, ih t' h2 false]
      · simp [hd, ih t' h2 true]

/-- Lowercasing a pattern is idempotent. -/
theorem lowerPat_lowerPat (p : Pat) : lowerPat (lowerPat p) = lowerPat p := by
  simp only [lowerPat, List.map_map]
  apply List.map_congr_left
  intro a _
  cases a <;> simp [Function.comp_def, toLower_toLower]

/-- Replacing table patterns by their lowercased forms changes neither
the accumulated sum nor which entries match. -/
theorem relLoop_lower (low : List Char) (k k' : List (Pat × Int))
    (h : List.Forall₂ (fun a b => b.2 = a.2 ∧ (b.1 = a.1 ∨ b.1 = lowerPat a.1)) k k') :
    (relLoop low k').1 = (relLoop low k).1 ∧
    List.Forall₂ (fun p q => q = p ∨ q = lowerPat p)
      (relLoop low k).2 (relLoop low k').2 := by
  induction h with
  | nil => exact ⟨rfl, List.Forall₂.nil⟩
  | @cons a b l₁ l₂ hab htail ih =>
    obtain ⟨hw, hp⟩ := hab
    have hlp : lowerPat b.1 = lowerPat a.1 := by
      rcases hp with h' | h'
      · rw [h']
      · rw [h', lowerPat_lowerPat]
    simp only [relLoop, hlp, hw]
    by_cases hm : reSearch (lowerPat a.1) none low
    · simp only [hm, if_true]
      exact ⟨by rw [ih.1], List.Forall₂.cons hp ih.2⟩
    · simp only [hm, if_false]
      exact ih

/-- `scoreLE` is transitive. -/
theorem scoreLE_trans : ∀ (a b c : Article),
    scoreLE a b → scoreLE b c → scoreLE a c := by
  intro a b c h1 h2
  simp only [scoreLE, decide_eq_true_eq] at h1 h2 ⊢
  exact le_trans h1 h2

/-- `scoreLE` is total. -/
theorem scoreLE_total : ∀ (a b : Article), scoreLE a b || scoreLE b a := by
  intro a b
  simp only [scoreLE, Bool.or_eq_true, decide_eq_true_eq]
  exact le_total a.score b.score

/-! ### Helper computations for the Herschel scenario -/

set_option maxRecDepth 8000 in
theorem herschel_tokens : tokenCount herschelTitle = 7 := by decide

set_option maxRecDepth 8000 in
theorem herschel_loop :
    relLoop (herschelTitle.map Char.toLower) keywords =
      (20, [lits "herschel", RE.wb :: lits "dust", lits "forming",
            RE.wb :: lits "gala", lits "star", lits "observ"]) := by decide

theorem herschel_score :
    title_relevance herschelTitle keywords =
      some (20 / 7, [lits "herschel", RE.wb :: lits "dust", lits "forming",
                     RE.wb :: lits "gala", lits "star", lits "observ"]) := by
  unfold title_relevance
  rw [if_neg (by rw [herschel_tokens]; omega)]
  show some (((relLoop (herschelTitle.map Char.toLower) keywords).1 : ℚ) /
      (tokenCount herschelTitle : ℚ),
    (relLoop (herschelTitle.map Char.toLower) keywords).2) = _
  rw [herschel_loop, herschel_tokens]
  norm_num

theorem herschel_round : roundHalfEven (20 / 7 * 10 : ℚ) = 29 := by
  have hfl : ⌊(20 / 7 * 10 : ℚ)⌋ = 28 := by
    rw [Int.floor_eq_iff]
    norm_num
  unfold roundHalfEven
  rw [hfl]
  rw [if_neg (by norm_num), if_pos (by norm_num)]
  norm_num

theorem herschel_fmt : fmt1 (20 / 7 : ℚ) = "2.9" := by
  unfold fmt1
  rw [herschel_round]
  decide

theorem herschel_displayed : displayed [herschelArticle] = [herschelArticle] := by
  rw [displayed, List.mergeSort_singleton, List.filter_singleton]
  have ht : decide (threshold < herschelArticle.score) = true := by
    simp only [herschelArticle, threshold, decide_eq_true_eq]
    norm_num
  rw [ht]
  rfl

/-! ### Claim theorems -/

/-- Claim C1: for every title with at least one whitespace-delimited token
and every keyword mapping, `title_relevance` returns the sum of the
weights of exactly the patterns whose lowercased form is found in the
lowercased title, divided by the token count of the title, paired with
the matching patterns in keyword-table iteration order. -/
theorem title_relevance_matches_spec (t : List Char) (k : List (Pat × Int))
    (h : 1 ≤ tokenCount t) :
    title_relevance t k = some (score_spec t k) :=
  title_relevance_some t k (by omega)

theorem title_relevance_matches_spec_witness :
    1 ≤ tokenCount ("a b".data) ∧
    title_relevance ("a b".data) [(lits "a", 3)] =
      some (score_spec ("a b".data) [(lits "a", 3)]) :=
  ⟨by decide, title_relevance_matches_spec ("a b".data) [(lits "a", 3)] (by decide)⟩

/-- Claim C2: the code does not guard the zero-token title: for every
keyword mapping, scoring the empty title reaches the division
`float(relevance) / len(title.split())` with a zero divisor and raises
`ZeroDivisionError` (modelled as `none`) instead of returning the pair
of score `0.0` and an empty matched list that the specification
prescribes. -/
theorem title_relevance_zero_tokens :
    ∀ (k : List (Pat × Int)), title_relevance [] k = none :=
  fun _ => rfl

/-- Claim C3: the displayed articles are exactly those with score above
`0.7` (a permutation of the filtered input), in ascending score order,
and for each score value the displayed articles keep their original
relative order (stability of the sort), all of them displayed exactly
when the score exceeds the threshold. -/
theorem displayed_filter_sort (arts : List Article) :
    (displayed arts).Perm (arts.filter (fun a => threshold < a.score)) ∧
    (displayed arts).Pairwise (fun a b => a.score ≤ b.score) ∧
    ∀ q : ℚ, (displayed arts).filter (fun a => a.score = q) =
      if threshold < q then arts.filter (fun a => a.score = q) else [] := by
  refine ⟨?_, ?_, ?_⟩
  · exact (List.mergeSort_perm arts scoreLE).filter _
  · have hp := List.sorted_mergeSort scoreLE_trans scoreLE_total arts
    have := hp.filter (fun a => decide (threshold < a.score))
    exact this.imp (fun h => by simpa [scoreLE] using h)
  · intro q
    by_cases hq : threshold < q
    · rw [if_pos hq]
      have hmem : ∀ a ∈ arts.filter (fun a => decide (a.score = q)), a.score = q := by
        intro a ha
        simpa using (List.mem_filter.mp ha).2
      have hc : (arts.filter (fun a => decide (a.score = q))).Pairwise
          (fun a b => scoreLE a b) :=
        List.pairwise_of_forall_mem_list (fun a ha b hb => by
          simp only [scoreLE, decide_eq_true_eq]
          rw [hmem a ha, hmem b hb])
      have hsub := List.sublist_mergeSort scoreLE_trans scoreLE_total hc
        (List.filter_sublist arts)
      have hsub2 := hsub.filter (fun a => decide (a.score = q))
      rw [List.filter_eq_self.mpr (fun a ha => by simpa using hmem a ha)] at hsub2
      have hd : (displayed arts).filter (fun a => decide (a.score = q)) =
          (arts.mergeSort scoreLE).filter (fun a => decide (a.score = q)) := by
        rw [displayed, List.filter_filter]
        apply List.filter_congr
        intro a _
        by_cases ha : a.score = q
        · simp [ha, hq, threshold] at *
          simpa [ha] using hq
        · simp [ha]
      rw [hd]
      have hperm : ((arts.mergeSort scoreLE).filter (fun a => decide (a.score = q))).Perm
          (arts.filter (fun a => decide (a.score = q))) :=
        (List.mergeSort_perm arts scoreLE).filter _
      exact (hsub2.eq_of_length hperm.length_eq.symm).symm
    · rw [if_neg hq]
      rw [List.filter_eq_nil_iff]
      intro a ha haq
      have hth : threshold < a.score := by
        have := (List.mem_filter.mp ha).2
        simpa using this
      rw [show a.score = q from by simpa using haq] at hth
      exact hq hth

/-- Claim C4: on the title "Herschel observations of dust in star-forming
galaxies" with the fixed keyword table, the token count is 7, the
accumulated weight sum of the matching patterns (herschel, dust, forming,
gala, star, observ) is 20, the score is `20/7`, it is rendered as "2.9",
and since `20/7 > 0.7` the article is displayed. -/
theorem herschel_scenario :
    tokenCount herschelTitle = 7 ∧
    (relLoop (herschelTitle.map Char.toLower) keywords).1 = 20 ∧
    title_relevance herschelTitle keywords =
      some (20 / 7, [lits "herschel", RE.wb :: lits "dust", lits "forming",
                     RE.wb :: lits "gala", lits "star", lits "observ"]) ∧
    fmt1 (20 / 7) = "2.9" ∧
    threshold < 20 / 7 ∧
    displayed [herschelArticle] = [herschelArticle] :=
  ⟨herschel_tokens, by rw [herschel_loop], herschel_score, herschel_fmt,
   by norm_num [threshold], herschel_displayed⟩

/-- Claim C5: multiplying every weight of a keyword mapping by a positive
constant `c` multiplies the score by `c` and leaves the matched list
unchanged (also when the scorer fails on a zero-token title). -/
theorem title_relevance_scales_weights (t : List Char) (k : List (Pat × Int))
    (c : ℤ) (_hc : 0 < c) :
    title_relevance t (k.map (fun kw => (kw.1, c * kw.2))) =
      (title_relevance t k).map (fun r => ((c : ℚ) * r.1, r.2)) := by
  unfold title_relevance
  by_cases h : tokenCount t = 0
  · simp [h]
  · rw [if_neg h, if_neg h, relLoop_scale]
    simp only [Option.map_some]
    congr 1
    refine Prod.ext ?_ rfl
    show ((c * (relLoop (List.map Char.toLower t) k).1 : ℤ) : ℚ) / (tokenCount t : ℚ) =
      (c : ℚ) * (((relLoop (List.map Char.toLower t) k).1 : ℚ) / (tokenCount t : ℚ))
    push_cast
    ring

theorem title_relevance_scales_weights_witness :
    0 < (2 : ℤ) ∧
    title_relevance ("a".data) ([(lits "a", 1)].map (fun kw => (kw.1, 2 * kw.2))) =
      (title_relevance ("a".data) [(lits "a", 1)]).map
        (fun r => (((2 : ℤ) : ℚ) * r.1, r.2)) :=
  ⟨by decide, title_relevance_scales_weights ("a".data) [(lits "a", 1)] 2 (by decide)⟩

/-- Claim C6: two titles that differ only in letter case (their
character-wise lowercasings agree) receive the same score and matched
list from every keyword mapping. -/
theorem title_relevance_case_insensitive (s t : List Char) (k : List (Pat × Int))
    (h : s.map Char.toLower = t.map Char.toLower) :
    title_relevance s k = title_relevance t k := by
  have ht : tokenCount s = tokenCount t := tokAux_lower_congr s t h false
  unfold title_relevance
  rw [ht, h]

theorem title_relevance_case_insensitive_witness :
    ("AbC".data).map Char.toLower = ("abc".data).map Char.toLower ∧
    title_relevance ("AbC".data) keywords = title_relevance ("abc".data) keywords :=
  ⟨by decide, title_relevance_case_insensitive ("AbC".data) ("abc".data) keywords
    (by decide)⟩

/-- Claim C7 counterexample: on the empty title the scorer with the empty
keyword mapping does not return score `0.0` with an empty matched list —
the code divides by zero (`none`). -/
theorem score_empty_keywords_cex :
    title_relevance ([] : List Char) ([] : List (Pat × Int)) ≠ some (0, []) := by
  decide

/-- Claim C7 (amended): for every title with at least one
whitespace-delimited token, the empty keyword mapping yields score `0.0`
and an empty matched list. -/
theorem score_empty_keywords (t : List Char) (h : 1 ≤ tokenCount t) :
    title_relevance t [] = some (0, []) := by
  rw [title_relevance_some t [] (by omega)]
  simp [score_spec]

theorem score_empty_keywords_witness :
    1 ≤ tokenCount ("a".data) ∧
    title_relevance ("a".data) [] = some (0, []) :=
  ⟨by decide, score_empty_keywords ("a".data) (by decide)⟩

/-- Claim C8: the stored identifier is the entry identifier with its
first 21 characters removed, so an arXiv abstract URL (whose fixed part
has length 21) yields the bare paper identifier. -/
theorem extractId_strips21 (p rest : List Char) (h : p.length = 21) :
    extractId (p ++ rest) = rest := by
  rw [extractId, ← h, List.drop_left]

theorem extractId_strips21_witness :
    ("http://arxiv.org/abs/".data).length = 21 ∧
    extractId ("http://arxiv.org/abs/".data ++ "1402.00001".data) = "1402.00001".data :=
  ⟨by decide, extractId_strips21 ("http://arxiv.org/abs/".data) ("1402.00001".data)
    (by decide)⟩

/-- Claim C9: on a title with at least one token, each table pattern
contributes its weight at most once (the matched list is a sublist of
the table keys and the score numerator is the sum over the matching
table entries), the matched list is no longer than the table, and it has
no duplicates whenever the table keys have none. -/
theorem matched_patterns_once (t : List Char) (k : List (Pat × Int))
    (h : 1 ≤ tokenCount t) :
    ∃ s m, title_relevance t k = some (s, m) ∧
      m.Sublist (k.map (fun kw => kw.1)) ∧
      m.length ≤ k.length ∧
      ((k.map (fun kw => kw.1)).Nodup → m.Nodup) ∧
      s * (tokenCount t : ℚ) =
        (((k.filter (matchesTitle t)).map (fun kw => kw.2) : List ℤ).sum : ℚ) := by
  have hsub : ((k.filter (matchesTitle t)).map (fun kw => kw.1)).Sublist
      (k.map (fun kw => kw.1)) :=
    (List.filter_sublist k).map (fun kw => kw.1)
  refine ⟨(score_spec t k).1, (score_spec t k).2,
    by rw [title_relevance_some t k (by omega)], ?_, ?_, fun hnd => ?_, ?_⟩
  · show ((k.filter (matchesTitle t)).map (fun kw => kw.1)).Sublist _
    exact hsub
  · show ((k.filter (matchesTitle t)).map (fun kw => kw.1)).length ≤ k.length
    have := hsub.length_le
    simpa using this
  · exact hsub.nodup hnd
  · show ((((k.filter (matchesTitle t)).map (fun kw => kw.2) : List ℤ).sum : ℚ) /
        (tokenCount t : ℚ)) * (tokenCount t : ℚ) = _
    rw [div_mul_cancel₀]
    exact Nat.cast_ne_zero.mpr (by omega)

theorem matched_patterns_once_witness :
    1 ≤ tokenCount ("a".data) ∧
    (∃ s m, title_relevance ("a".data) keywords = some (s, m) ∧
      m.Sublist (keywords.map (fun kw => kw.1)) ∧
      m.length ≤ keywords.length ∧
      ((keywords.map (fun kw => kw.1)).Nodup → m.Nodup) ∧
      s * (tokenCount ("a".data) : ℚ) =
        (((keywords.filter (matchesTitle ("a".data))).map (fun kw => kw.2) :
            List ℤ).sum : ℚ)) :=
  ⟨by decide, matched_patterns_once ("a".data) keywords (by decide)⟩

/-- Claim C10: on a title with at least one token, replacing any table
patterns by their lowercased forms leaves the score unchanged, and the
matched lists correspond entry-wise, each reporting the pattern string
as stored in its own mapping. -/
theorem patterns_case_insensitive (t : List Char) (k k' : List (Pat × Int))
    (h1 : 1 ≤ tokenCount t)
    (h2 : List.Forall₂ (fun a b => b.2 = a.2 ∧ (b.1 = a.1 ∨ b.1 = lowerPat a.1)) k k') :
    ∃ s m m', title_relevance t k = some (s, m) ∧
      title_relevance t k' = some (s, m') ∧
      List.Forall₂ (fun p q => q = p ∨ q = lowerPat p) m m' := by
  obtain ⟨hs, hm⟩ := relLoop_lower (t.map Char.toLower) k k' h2
  refine ⟨((relLoop (t.map Char.toLower) k).1 : ℚ) / (tokenCount t : ℚ),
    (relLoop (t.map Char.toLower) k).2, (relLoop (t.map Char.toLower) k').2,
    ?_, ?_, hm⟩
  · unfold title_relevance
    rw [if_neg (by omega)]
  · unfold title_relevance
    rw [if_neg (by omega)]
    show some (((relLoop (t.map Char.toLower) k').1 : ℚ) / (tokenCount t : ℚ),
      (relLoop (t.map Char.toLower) k').2) = _
    rw [hs]

theorem patterns_case_insensitive_witness :
    1 ≤ tokenCount ("ab".data) ∧
    List.Forall₂ (fun a b => b.2 = a.2 ∧ (b.1 = a.1 ∨ b.1 = lowerPat a.1))
      [((lits "A" : Pat), (2 : ℤ))] [(lits "a", 2)] ∧
    (∃ s m m', title_relevance ("ab".data) [(lits "A", 2)] = some (s, m) ∧
      title_relevance ("ab".data) [(lits "a", 2)] = some (s, m') ∧
      List.Forall₂ (fun p q => q = p ∨ q = lowerPat p) m m') := by
  have hrel : List.Forall₂ (fun a b => b.2 = a.2 ∧ (b.1 = a.1 ∨ b.1 = lowerPat a.1))
      [((lits "A" : Pat), (2 : ℤ))] [(lits "a", 2)] :=
    List.Forall₂.cons ⟨rfl, Or.inr (by decide)⟩ List.Forall₂.nil
  exact ⟨by decide, hrel,
    patterns_case_insensitive ("ab".data) [(lits "A", 2)] [(lits "a", 2)]
      (by decide) hrel⟩

end Arxiv

